import Mathlib

/-!
Verification of scripts/make-gif.py, a linear pipeline that loads numbered
frame images, normalizes them onto a common canvas, and encodes two looping
GIF animations (a full sequence and a worktree subrange).

The embedding models a PIL image as a mode tag (RGB or RGBA), integer
dimensions, and total pixel functions for the color and alpha channels.
PIL behaviors relied on by the script and encoded here:
  * Image.convert from RGBA to RGB drops the alpha channel without
    compositing; the stored color values are unchanged.
  * Image.new in mode RGB with a fill color yields an opaque solid canvas.
  * Image.paste without a mask argument converts the source to the
    destination mode (discarding alpha) and copies color values into the
    destination box; the alpha channel is never used as a mask.
Failures (ValueError from max() on an empty sequence, IndexError from
norm[0], sys.exit) are modelled with Option / Except and an explicit
outcome type for the driver.
-/

namespace MakeGif

/-- An RGB color triple, as PIL stores pixel values in mode RGB. -/
structure Rgb where
  r : Nat
  g : Nat
  b : Nat
deriving DecidableEq

/-- The two PIL pixel modes used by the script. -/
inductive PMode where
  | RGB
  | RGBA
deriving DecidableEq

/-- A decoded in-memory image: mode, dimensions, color channel and alpha
channel. The channel functions are total; only arguments inside the
width/height bounds are meaningful. Images in mode RGB carry a constant
alpha of 255, reflecting that PIL RGB images have no transparency. -/
structure Img where
  mode : PMode
  width : Nat
  height : Nat
  px : Nat → Nat → Rgb
  alpha : Nat → Nat → Nat

instance : Inhabited Img := ⟨⟨PMode.RGB, 0, 0, fun _ _ => ⟨0, 0, 0⟩, fun _ _ => 255⟩⟩

/-- Image.new('RGB', (w, h), c): a solid opaque canvas. -/
def imgNew (w h : Nat) (c : Rgb) : Img :=
  ⟨PMode.RGB, w, h, fun _ _ => c, fun _ _ => 255⟩

/-- img.convert('RGB'): drop the transparency channel; the stored color
values are unchanged (PIL does not composite on this conversion). -/
def Img.convertRGB (img : Img) : Img :=
  { img with mode := PMode.RGB, alpha := fun _ _ => 255 }

/-- img.convert('RGBA'): add an explicit alpha channel; an RGB source
becomes fully opaque, an RGBA source is unchanged. -/
def Img.convertRGBA (img : Img) : Img :=
  { img with
    mode := PMode.RGBA,
    alpha := if img.mode = PMode.RGB then fun _ _ => 255 else img.alpha }

/-- dst.paste(src, (0, 0)) with no mask argument: the source is converted
to the destination mode (its alpha channel is discarded) and its color
values are copied into the box anchored at the origin. Pixels outside the
box keep the destination values; the destination alpha is untouched. -/
def Img.paste (dst src : Img) : Img :=
  { dst with
    px := fun a b =>
      if a < src.width ∧ b < src.height then src.px a b else dst.px a b }

/- ----------------------------------------------------------------- -/
/- Duration tables (make-gif.py lines 10-38).                        -/
/- ----------------------------------------------------------------- -/

/-- SPEED = 3: the configured speed multiplier. -/
def SPEED : Nat := 3

/-- base_durations: the 18-entry baseline duration table in milliseconds
at 1x speed (lines 13-32). -/
def base_durations : List Nat :=
  [2500, 1500, 2000, 3000, 2500, 1200, 1200, 3500, 2000,
   1500, 2500, 2000, 3000, 1200, 1200, 2000, 2000, 3500]

/-- The comprehension of line 34 with the speed multiplier as a parameter:
[max(50, d // s) for d in base_durations]. Python // on non-negative
integers is Nat division. -/
def derivedDurations (s : Nat) : List Nat :=
  base_durations.map (fun d => max 50 (d / s))

/-- durations = [max(50, d // SPEED) for d in base_durations] (line 34). -/
def durations : List Nat := derivedDurations SPEED

/-- WORKTREE_FRAMES = list(range(9, 14)) = [9, 10, 11, 12, 13]. -/
def WORKTREE_FRAMES : List Nat := List.range' 9 5

/-- worktree_durations = [durations[i - 1] for i in WORKTREE_FRAMES]
(line 38). List indexing is modelled with getD; every index i - 1 for
i in WORKTREE_FRAMES is in range for the 18-entry table. -/
def worktree_durations : List Nat :=
  WORKTREE_FRAMES.map (fun i => durations.getD (i - 1) 0)

/-- all_indices = list(range(1, len(base_durations) + 1)) (line 84). -/
def all_indices : List Nat := List.range' 1 base_durations.length

/- ----------------------------------------------------------------- -/
/- Canvas normalization (make-gif.py lines 52-63).                   -/
/- ----------------------------------------------------------------- -/

/-- max() over a sequence of naturals; None models the ValueError Python
raises on an empty sequence. -/
def listMax : List Nat → Option Nat
  | [] => none
  | x :: xs => some (xs.foldl max x)

/-- The body of the normalize loop for one image (lines 56-62): an image
already at the canvas size is converted to RGB, a smaller one is pasted
onto a fresh dark canvas. -/
def normOne (mw mh : Nat) (img : Img) : Img :=
  if img.width = mw ∧ img.height = mh then
    img.convertRGB
  else
    (imgNew mw mh ⟨30, 30, 30⟩).paste img

/-- normalize(images) (lines 52-63): compute the maximum width and height
across the input and map every image onto a canvas of that size. None
models the ValueError from max() on an empty input. -/
def normalize (images : List Img) : Option (List Img) :=
  match listMax (images.map Img.width), listMax (images.map Img.height) with
  | some mw, some mh => some (images.map (normOne mw mh))
  | _, _ => none

/- ----------------------------------------------------------------- -/
/- Loading, encoding and the driver (lines 41-49, 66-78, 81-90).     -/
/- ----------------------------------------------------------------- -/

/-- The GIF file written by save_gif: its frame sequence, per-frame
durations and loop count (0 = loop forever). -/
structure GifFile where
  frames : List Img
  durations : List Nat
  loop : Nat

/-- load_frames(indices) (lines 41-49) against a file system modelled as
a partial map from frame index to decoded image. The first index whose
file does not exist aborts the load (Except.error carries that index);
otherwise every image is decoded and converted to RGBA in order. -/
def load_frames (fs : Nat → Option Img) : List Nat → Except Nat (List Img)
  | [] => Except.ok []
  | i :: rest =>
    match fs i with
    | none => Except.error i
    | some img =>
      match load_frames fs rest with
      | Except.error j => Except.error j
      | Except.ok imgs => Except.ok (img.convertRGBA :: imgs)

/-- save_gif(images, durs, path) (lines 66-78) up to the file write: the
frames are the normalized sequence (norm[0] followed by norm[1:]), shown
with the given durations, looping forever. None models an uncaught
exception (normalize failing on empty input, or the norm[0] access). -/
def save_gif (images : List Img) (durs : List Nat) : Option GifFile :=
  match normalize images with
  | none => none
  | some [] => none
  | some (first :: rest) => some ⟨first :: rest, durs, 0⟩

/-- frames_dir / f'frame-{i}.png' (line 44). -/
def framePath (dir : String) (i : Nat) : String :=
  dir ++ "/frame-" ++ toString i ++ ".png"

/-- The observable outcome of one run of the module driver: a process
exit with a status code, the diagnostic lines printed ('Speed: 3x' and
any 'Missing: <path>' line; the per-output summary lines depend on the
on-disk file size and are not modelled), and the output files written;
or a crash from an uncaught exception. -/
inductive RunOutcome where
  | exited (code : Nat) (printed : List String) (outputs : List (String × GifFile))
  | crashed

/-- The module driver (lines 81-90): print the speed, load and save the
full demo GIF, then load and save the worktree GIF. sys.exit(1) inside
load_frames aborts the run with the outputs written so far. -/
def runPipeline (fs : Nat → Option Img) (frames_dir out_dir : String) : RunOutcome :=
  match load_frames fs all_indices with
  | Except.error i =>
    RunOutcome.exited 1 ["Speed: 3x", "Missing: " ++ framePath frames_dir i] []
  | Except.ok all_images =>
    match save_gif all_images durations with
    | none => RunOutcome.crashed
    | some demo =>
      match load_frames fs WORKTREE_FRAMES with
      | Except.error i =>
        RunOutcome.exited 1 ["Speed: 3x", "Missing: " ++ framePath frames_dir i]
          [(out_dir ++ "/demo.gif", demo)]
      | Except.ok wt_images =>
        match save_gif wt_images worktree_durations with
        | none => RunOutcome.crashed
        | some wt =>
          RunOutcome.exited 0 ["Speed: 3x"]
            [(out_dir ++ "/demo.gif", demo), (out_dir ++ "/worktree.gif", wt)]

/- ----------------------------------------------------------------- -/
/- Basic lemmas about the embedding.                                 -/
/- ----------------------------------------------------------------- -/

lemma foldl_max_const (m : Nat) :
    ∀ (xs : List Nat) (acc : Nat), (∀ a ∈ xs, a = m) → acc = m →
      xs.foldl max acc = m := by
  intro xs
  induction xs with
  | nil => intro acc _ hacc; simpa using hacc
  | cons y ys ih =>
    intro acc hall hacc
    have hy : y = m := hall y (List.mem_cons_self _ _)
    have : max acc y = m := by rw [hacc, hy, Nat.max_self]
    exact ih (max acc y) (fun a ha => hall a (List.mem_cons_of_mem _ ha)) this

lemma listMax_eq_of_all_eq (l : List Nat) (m : Nat) (hne : l ≠ [])
    (hall : ∀ a ∈ l, a = m) : listMax l = some m := by
  cases l with
  | nil => exact absurd rfl hne
  | cons x xs =>
    have hx : x = m := hall x (List.mem_cons_self _ _)
    simp only [listMax, Option.some.injEq]
    exact foldl_max_const m xs x (fun a ha => hall a (List.mem_cons_of_mem _ ha)) hx

lemma normOne_width (mw mh : Nat) (x : Img) : (normOne mw mh x).width = mw := by
  by_cases hc : x.width = mw ∧ x.height = mh
  · simp [normOne, hc, Img.convertRGB]
  · simp [normOne, hc, Img.paste, imgNew]

lemma normOne_height (mw mh : Nat) (x : Img) : (normOne mw mh x).height = mh := by
  by_cases hc : x.width = mw ∧ x.height = mh
  · simp [normOne, hc, Img.convertRGB]
  · simp [normOne, hc, Img.paste, imgNew]

lemma normOne_of_size (mw mh : Nat) (y : Img) (h1 : y.width = mw)
    (h2 : y.height = mh) : normOne mw mh y = y.convertRGB := by
  unfold normOne
  rw [if_pos ⟨h1, h2⟩]

lemma convertRGB_normOne (mw mh : Nat) (x : Img) :
    (normOne mw mh x).convertRGB = normOne mw mh x := by
  unfold normOne
  split
  · rfl
  · rfl

lemma normOne_idem (mw mh : Nat) (x : Img) :
    normOne mw mh (normOne mw mh x) = normOne mw mh x := by
  rw [normOne_of_size mw mh _ (normOne_width mw mh x) (normOne_height mw mh x)]
  exact convertRGB_normOne mw mh x

/-- Unfolding of normalize on a non-empty input: the maxima exist and the
result is the pointwise normalization at those maxima. -/
lemma normalize_spec (images : List Img) (h : images ≠ []) :
    ∃ mw mh, listMax (images.map Img.width) = some mw ∧
      listMax (images.map Img.height) = some mh ∧
      normalize images = some (images.map (normOne mw mh)) := by
  cases images with
  | nil => exact absurd rfl h
  | cons x xs => exact ⟨_, _, rfl, rfl, rfl⟩

lemma getD_map_of_lt (f : Img → Img) (l : List Img) (j : Nat)
    (hj : j < l.length) :
    (l.map f).getD j default = f (l.getD j default) := by
  rw [List.getD_eq_getElem _ _ (by simpa using hj),
    List.getD_eq_getElem _ _ hj, List.getElem_map]

/- ----------------------------------------------------------------- -/
/- Claims about the duration tables.                                 -/
/- ----------------------------------------------------------------- -/

/-- Claim C1: for every entry b of the baseline table and every integer
speed multiplier s at least 1, the derived per-frame duration equals
max(50, b / s) with integer floor division, and every derived duration is
at least 50 (never zero or negative); the deployed table is the
derivation at SPEED. -/
theorem derived_durations_floor (s : Nat) (hs : 1 ≤ s) :
    (derivedDurations s).length = base_durations.length ∧
    (∀ j, j < base_durations.length →
      (derivedDurations s).getD j 0 = max 50 (base_durations.getD j 0 / s)) ∧
    (∀ d ∈ derivedDurations s, 50 ≤ d) ∧
    durations = derivedDurations SPEED := by
  refine ⟨by simp [derivedDurations], ?_, ?_, rfl⟩
  · intro j hj
    rw [List.getD_eq_getElem _ _ (by simpa [derivedDurations] using hj),
      List.getD_eq_getElem _ _ hj]
    simp [derivedDurations]
  · intro d hd
    simp only [derivedDurations, List.mem_map] at hd
    obtain ⟨b, _, rfl⟩ := hd
    exact Nat.le_max_left 50 _

/-- Witness for C1 at the deployed speed multiplier 3. -/
theorem derived_durations_floor_witness :
    1 ≤ 3 ∧
    ((derivedDurations 3).length = base_durations.length ∧
      (∀ j, j < base_durations.length →
        (derivedDurations 3).getD j 0 = max 50 (base_durations.getD j 0 / 3)) ∧
      (∀ d ∈ derivedDurations 3, 50 ≤ d) ∧
      durations = derivedDurations SPEED) :=
  ⟨by decide, derived_durations_floor 3 (by decide)⟩

/-- Claim C7: with speed multiplier 1 the derived table equals the
baseline table element for element, every baseline entry being at least
the 50ms floor. -/
theorem speed_one_identity :
    derivedDurations 1 = base_durations ∧ ∀ b ∈ base_durations, 50 ≤ b := by
  constructor
  · decide
  · decide

/-- Claim C4: the subrange duration sequence is the derived table
restricted to positions 9 through 13 in order, obtained by positional
lookup (the j-th subrange duration is the derived duration at full-plan
position WORKTREE_FRAMES j), with length equal to the frame-index
sequence. -/
theorem worktree_durations_lookup :
    worktree_durations = (durations.drop 8).take 5 ∧
    worktree_durations.length = WORKTREE_FRAMES.length ∧
    ∀ j, j < WORKTREE_FRAMES.length →
      worktree_durations.getD j 0 =
        durations.getD (WORKTREE_FRAMES.getD j 0 - 1) 0 := by
  refine ⟨by decide, by decide, ?_⟩
  decide

/-- Witness for C4 at the first subrange position. -/
theorem worktree_durations_lookup_witness :
    worktree_durations.getD 0 0 =
      durations.getD (WORKTREE_FRAMES.getD 0 0 - 1) 0 :=
  worktree_durations_lookup.2.2 0 (by decide)

/-- Claim C10: the empty sequence is outside the domain of both public
operations: normalize fails (max of an empty collection) and save_gif
produces no file for any duration list, so non-emptiness is a
precondition of both. -/
theorem nonempty_precondition :
    normalize [] = none ∧ ∀ durs : List Nat, save_gif [] durs = none := by
  exact ⟨rfl, fun _ => rfl⟩

/- ----------------------------------------------------------------- -/
/- Claims about the Canvas Normalizer.                               -/
/- ----------------------------------------------------------------- -/

/-- Claim C2: on a non-empty input, normalize returns a same-length,
same-order sequence in which every image has the maximum input width and
height, and an input already at that size is returned converted to RGB
(transparency channel dropped) with its color content and dimensions
unchanged. -/
theorem normalize_contract (images : List Img) (h : images ≠ []) :
    ∃ mw mh ys,
      listMax (images.map Img.width) = some mw ∧
      listMax (images.map Img.height) = some mh ∧
      normalize images = some ys ∧
      ys.length = images.length ∧
      (∀ j, j < images.length →
        (ys.getD j default).width = mw ∧ (ys.getD j default).height = mh) ∧
      (∀ j, j < images.length →
        (images.getD j default).width = mw →
        (images.getD j default).height = mh →
          ys.getD j default = (images.getD j default).convertRGB) ∧
      (∀ img : Img, img.convertRGB.mode = PMode.RGB ∧
        img.convertRGB.px = img.px ∧
        img.convertRGB.width = img.width ∧
        img.convertRGB.height = img.height) := by
  obtain ⟨mw, mh, hw, hh, hn⟩ := normalize_spec images h
  refine ⟨mw, mh, images.map (normOne mw mh), hw, hh, hn, by simp, ?_, ?_, ?_⟩
  · intro j hj
    rw [getD_map_of_lt _ _ _ hj]
    exact ⟨normOne_width mw mh _, normOne_height mw mh _⟩
  · intro j hj h1 h2
    rw [getD_map_of_lt _ _ _ hj]
    exact normOne_of_size mw mh _ h1 h2
  · intro img
    exact ⟨rfl, rfl, rfl, rfl⟩

/-- Witness for C2 on a concrete one-element sequence. -/
theorem normalize_contract_witness :
    ([(default : Img)] ≠ []) ∧
    (∃ mw mh ys,
      listMax ([(default : Img)].map Img.width) = some mw ∧
      listMax ([(default : Img)].map Img.height) = some mh ∧
      normalize [(default : Img)] = some ys ∧
      ys.length = [(default : Img)].length ∧
      (∀ j, j < [(default : Img)].length →
        (ys.getD j default).width = mw ∧ (ys.getD j default).height = mh) ∧
      (∀ j, j < [(default : Img)].length →
        ([(default : Img)].getD j default).width = mw →
        ([(default : Img)].getD j default).height = mh →
          ys.getD j default = ([(default : Img)].getD j default).convertRGB) ∧
      (∀ img : Img, img.convertRGB.mode = PMode.RGB ∧
        img.convertRGB.px = img.px ∧
        img.convertRGB.width = img.width ∧
        img.convertRGB.height = img.height)) :=
  ⟨by simp, normalize_contract [default] (by simp)⟩

/-- Claim C3: an input image strictly smaller than the computed maximum
canvas size is padded: the output pixels on the rectangle up to the
original width and height match the original exactly, and every other
canvas pixel is the fixed background fill color (30, 30, 30). -/
theorem normalize_pad (images : List Img) (h : images ≠ []) :
    ∃ mw mh ys,
      listMax (images.map Img.width) = some mw ∧
      listMax (images.map Img.height) = some mh ∧
      normalize images = some ys ∧
      ∀ j, j < images.length →
        ((images.getD j default).width < mw ∨
          (images.getD j default).height < mh) →
        (∀ a b, a < (images.getD j default).width →
          b < (images.getD j default).height →
          (ys.getD j default).px a b = (images.getD j default).px a b) ∧
        (∀ a b, a < mw → b < mh →
          ¬(a < (images.getD j default).width ∧
            b < (images.getD j default).height) →
          (ys.getD j default).px a b = ⟨30, 30, 30⟩) := by
  obtain ⟨mw, mh, hw, hh, hn⟩ := normalize_spec images h
  refine ⟨mw, mh, images.map (normOne mw mh), hw, hh, hn, ?_⟩
  intro j hj hsmall
  rw [getD_map_of_lt _ _ _ hj]
  have hcond : ¬((images.getD j default).width = mw ∧
      (images.getD j default).height = mh) := by
    rintro ⟨e1, e2⟩
    rcases hsmall with hlt | hlt
    · exact absurd e1 (Nat.ne_of_lt hlt)
    · exact absurd e2 (Nat.ne_of_lt hlt)
  rw [normOne, if_neg hcond]
  constructor
  · intro a b ha hb
    simp only [Img.paste]
    rw [if_pos ⟨ha, hb⟩]
  · intro a b _ _ hout
    simp only [Img.paste]
    rw [if_neg hout]
    rfl

/-- Witness for C3 on a concrete one-element sequence. -/
theorem normalize_pad_witness :
    ([(default : Img)] ≠ []) ∧
    (∃ mw mh ys,
      listMax ([(default : Img)].map Img.width) = some mw ∧
      listMax ([(default : Img)].map Img.height) = some mh ∧
      normalize [(default : Img)] = some ys ∧
      ∀ j, j < [(default : Img)].length →
        (([(default : Img)].getD j default).width < mw ∨
          ([(default : Img)].getD j default).height < mh) →
        (∀ a b, a < ([(default : Img)].getD j default).width →
          b < ([(default : Img)].getD j default).height →
          (ys.getD j default).px a b =
            ([(default : Img)].getD j default).px a b) ∧
        (∀ a b, a < mw → b < mh →
          ¬(a < ([(default : Img)].getD j default).width ∧
            b < ([(default : Img)].getD j default).height) →
          (ys.getD j default).px a b = ⟨30, 30, 30⟩)) :=
  ⟨by simp, normalize_pad [default] (by simp)⟩

/-- Claim C6: the Canvas Normalizer is idempotent on every non-empty
sequence: normalizing the output of normalize returns it unchanged in
content and dimensions. -/
theorem normalize_idempotent (images : List Img) (h : images ≠ []) :
    (normalize images).bind normalize = normalize images := by
  obtain ⟨mw, mh, hw, hh, hn⟩ := normalize_spec images h
  rw [hn]
  show normalize (images.map (normOne mw mh)) = some (images.map (normOne mw mh))
  have hne : images.map (normOne mw mh) ≠ [] := by
    cases images with
    | nil => exact absurd rfl h
    | cons x xs => simp
  have hw2 : listMax ((images.map (normOne mw mh)).map Img.width) = some mw := by
    apply listMax_eq_of_all_eq _ _ (by simpa using hne)
    intro a ha
    rw [List.map_map] at ha
    obtain ⟨x, _, rfl⟩ := List.mem_map.1 ha
    exact normOne_width mw mh x
  have hh2 : listMax ((images.map (normOne mw mh)).map Img.height) = some mh := by
    apply listMax_eq_of_all_eq _ _ (by simpa using hne)
    intro a ha
    rw [List.map_map] at ha
    obtain ⟨x, _, rfl⟩ := List.mem_map.1 ha
    exact normOne_height mw mh x
  simp only [normalize, hw2, hh2]
  rw [List.map_map]
  exact congrArg some (List.map_congr_left (fun x _ => normOne_idem mw mh x))

/-- Witness for C6 on a concrete one-element sequence. -/
theorem normalize_idempotent_witness :
    ([(default : Img)] ≠ []) ∧
    (normalize [(default : Img)]).bind normalize = normalize [(default : Img)] :=
  ⟨by simp, normalize_idempotent [default] (by simp)⟩

/-- Claim C9: pasting a frame onto the background canvas uses no alpha
mask: inside the pasted rectangle the source color values are copied
unchanged and the result is fully opaque, and the result never depends on
the source alpha channel, so the background cannot show through even
where the source was transparent. -/
theorem paste_ignores_alpha (mw mh : Nat) (img : Img) (a b : Nat)
    (ha : a < img.width) (hb : b < img.height) :
    ((imgNew mw mh ⟨30, 30, 30⟩).paste img).px a b = img.px a b ∧
    ((imgNew mw mh ⟨30, 30, 30⟩).paste img).alpha a b = 255 ∧
    ∀ alph : Nat → Nat → Nat,
      ((imgNew mw mh ⟨30, 30, 30⟩).paste { img with alpha := alph }).px a b =
        img.px a b := by
  refine ⟨?_, rfl, ?_⟩
  · simp [Img.paste, ha, hb]
  · intro alph
    simp [Img.paste, ha, hb]

/-- Witness for C9 at a concrete pixel of a concrete 2x3 source image
pasted onto a 5x7 canvas. -/
theorem paste_ignores_alpha_witness :
    (0 < (imgNew 2 3 ⟨1, 2, 3⟩).width ∧ 1 < (imgNew 2 3 ⟨1, 2, 3⟩).height) ∧
    (((imgNew 5 7 ⟨30, 30, 30⟩).paste (imgNew 2 3 ⟨1, 2, 3⟩)).px 0 1 =
        (imgNew 2 3 ⟨1, 2, 3⟩).px 0 1 ∧
      ((imgNew 5 7 ⟨30, 30, 30⟩).paste (imgNew 2 3 ⟨1, 2, 3⟩)).alpha 0 1 = 255 ∧
      ∀ alph : Nat → Nat → Nat,
        ((imgNew 5 7 ⟨30, 30, 30⟩).paste
            { imgNew 2 3 ⟨1, 2, 3⟩ with alpha := alph }).px 0 1 =
          (imgNew 2 3 ⟨1, 2, 3⟩).px 0 1) :=
  ⟨⟨by decide, by decide⟩,
    paste_ignores_alpha 5 7 (imgNew 2 3 ⟨1, 2, 3⟩) 0 1 (by decide) (by decide)⟩

/- ----------------------------------------------------------------- -/
/- Claims about the loader and the pipeline driver.                  -/
/- ----------------------------------------------------------------- -/

lemma load_frames_ok (fs : Nat → Option Img) (idx : List Nat)
    (h : ∀ i ∈ idx, (fs i).isSome) :
    ∃ imgs, load_frames fs idx = Except.ok imgs ∧ imgs.length = idx.length := by
  induction idx with
  | nil => exact ⟨[], rfl, rfl⟩
  | cons i rest ih =>
    obtain ⟨img, himg⟩ :=
      Option.isSome_iff_exists.1 (h i (List.mem_cons_self _ _))
    obtain ⟨imgs, hl, hlen⟩ := ih (fun j hj => h j (List.mem_cons_of_mem _ hj))
    refine ⟨img.convertRGBA :: imgs, ?_, by simp [hlen]⟩
    simp [load_frames, himg, hl]

lemma load_frames_error (fs : Nat → Option Img) (pre : List Nat) (i : Nat)
    (post : List Nat) (hpre : ∀ j ∈ pre, (fs j).isSome) (hi : fs i = none) :
    load_frames fs (pre ++ i :: post) = Except.error i := by
  induction pre with
  | nil => simp [load_frames, hi]
  | cons j rest ih =>
    obtain ⟨img, himg⟩ :=
      Option.isSome_iff_exists.1 (hpre j (List.mem_cons_self _ _))
    have hrest := ih (fun k hk => hpre k (List.mem_cons_of_mem _ hk))
    simp [load_frames, himg, hrest]

lemma save_gif_ok (images : List Img) (durs : List Nat) (h : images ≠ []) :
    ∃ g : GifFile, save_gif images durs = some g ∧
      g.durations = durs ∧ g.loop = 0 ∧
      ∃ mw mh, listMax (images.map Img.width) = some mw ∧
        listMax (images.map Img.height) = some mh ∧
        g.frames = images.map (normOne mw mh) := by
  obtain ⟨mw, mh, hw, hh, hn⟩ := normalize_spec images h
  cases images with
  | nil => exact absurd rfl h
  | cons x xs =>
    have hn' : normalize (x :: xs) =
        some (normOne mw mh x :: xs.map (normOne mw mh)) := by
      rw [hn]; rfl
    refine ⟨⟨normOne mw mh x :: xs.map (normOne mw mh), durs, 0⟩, ?_, rfl, rfl,
      mw, mh, hw, hh, rfl⟩
    simp [save_gif, hn']

/-- The successful run: with every required frame present the driver
exits with status 0 having written exactly the two planned output files,
each plan normalized to the maximum size over its own loaded frames. -/
lemma runPipeline_all_present (fs : Nat → Option Img) (dir out : String)
    (h : ∀ i ∈ all_indices, (fs i).isSome) :
    ∃ (all_imgs wt_imgs : List Img) (g1 g2 : GifFile),
      load_frames fs all_indices = Except.ok all_imgs ∧
      load_frames fs WORKTREE_FRAMES = Except.ok wt_imgs ∧
      save_gif all_imgs durations = some g1 ∧
      save_gif wt_imgs worktree_durations = some g2 ∧
      runPipeline fs dir out = RunOutcome.exited 0 ["Speed: 3x"]
        [(out ++ "/demo.gif", g1), (out ++ "/worktree.gif", g2)] ∧
      g1.frames.length = 18 ∧ g2.frames.length = 5 ∧
      (∀ f ∈ g1.frames, listMax (all_imgs.map Img.width) = some f.width ∧
        listMax (all_imgs.map Img.height) = some f.height) ∧
      (∀ f ∈ g2.frames, listMax (wt_imgs.map Img.width) = some f.width ∧
        listMax (wt_imgs.map Img.height) = some f.height) := by
  have hsub : ∀ i ∈ WORKTREE_FRAMES, i ∈ all_indices := by decide
  obtain ⟨all_imgs, hL1, hlen1⟩ := load_frames_ok fs all_indices h
  obtain ⟨wt_imgs, hL2, hlen2⟩ :=
    load_frames_ok fs WORKTREE_FRAMES (fun i hi => h i (hsub i hi))
  have h18 : all_imgs.length = 18 := by rw [hlen1]; decide
  have h5 : wt_imgs.length = 5 := by rw [hlen2]; decide
  have hne1 : all_imgs ≠ [] := by
    intro e; rw [e] at h18; exact absurd h18 (by decide)
  have hne2 : wt_imgs ≠ [] := by
    intro e; rw [e] at h5; exact absurd h5 (by decide)
  obtain ⟨g1, hs1, _, _, mw1, mh1, hw1, hh1, hf1⟩ :=
    save_gif_ok all_imgs durations hne1
  obtain ⟨g2, hs2, _, _, mw2, mh2, hw2, hh2, hf2⟩ :=
    save_gif_ok wt_imgs worktree_durations hne2
  refine ⟨all_imgs, wt_imgs, g1, g2, hL1, hL2, hs1, hs2, ?_, ?_, ?_, ?_, ?_⟩
  · simp [runPipeline, hL1, hs1, hL2, hs2]
  · rw [hf1]; simp [h18]
  · rw [hf2]; simp [h5]
  · intro f hf
    rw [hf1] at hf
    obtain ⟨x, _, rfl⟩ := List.mem_map.1 hf
    rw [normOne_width, normOne_height]
    exact ⟨hw1, hh1⟩
  · intro f hf
    rw [hf2] at hf
    obtain ⟨x, _, rfl⟩ := List.mem_map.1 hf
    rw [normOne_width, normOne_height]
    exact ⟨hw2, hh2⟩

/-- Claim C5: if a required frame file is absent (the first absent one in
load order being frame i), the driver prints the literal line naming the
missing path, exits with status 1, and writes no output file; with every
required frame present the driver exits with status 0 after writing both
outputs. -/
theorem pipeline_exit_behavior (fs : Nat → Option Img) (dir out : String) :
    (∀ i pre post, all_indices = pre ++ i :: post →
      (∀ j ∈ pre, (fs j).isSome) → fs i = none →
      runPipeline fs dir out =
        RunOutcome.exited 1 ["Speed: 3x", "Missing: " ++ framePath dir i] []) ∧
    ((∀ i ∈ all_indices, (fs i).isSome) →
      ∃ g1 g2, runPipeline fs dir out = RunOutcome.exited 0 ["Speed: 3x"]
        [(out ++ "/demo.gif", g1), (out ++ "/worktree.gif", g2)]) := by
  constructor
  · intro i pre post heq hpre hi
    have herr : load_frames fs all_indices = Except.error i := by
      rw [heq]; exact load_frames_error fs pre i post hpre hi
    simp [runPipeline, herr]
  · intro h
    obtain ⟨_, _, g1, g2, _, _, _, _, hrun, _⟩ :=
      runPipeline_all_present fs dir out h
    exact ⟨g1, g2, hrun⟩

/-- Witness for C5: frame 7 absent, everything before it present. -/
theorem pipeline_exit_behavior_witness :
    (all_indices =
      [1, 2, 3, 4, 5, 6] ++ 7 :: [8, 9, 10, 11, 12, 13, 14, 15, 16, 17, 18]) ∧
    (∀ j ∈ [1, 2, 3, 4, 5, 6],
      ((fun n => if n = 7 then none else some (default : Img)) j).isSome) ∧
    ((fun n => if n = 7 then none else some (default : Img)) 7 = none) ∧
    runPipeline (fun n => if n = 7 then none else some (default : Img))
        "frames" "out" =
      RunOutcome.exited 1 ["Speed: 3x", "Missing: " ++ framePath "frames" 7] [] :=
  ⟨by decide, by decide, rfl,
    (pipeline_exit_behavior
        (fun n => if n = 7 then none else some (default : Img)) "frames" "out").1
      7 [1, 2, 3, 4, 5, 6] [8, 9, 10, 11, 12, 13, 14, 15, 16, 17, 18]
      (by decide) (by decide) rfl⟩

/-- Claim C8: with all 18 required frames present, one run writes exactly
two output files, demo.gif with 18 frames and worktree.gif with 5 frames,
every frame of each file having the width and height equal to the
component-wise maximum over that plan's own loaded input frames. -/
theorem pipeline_two_outputs (fs : Nat → Option Img) (dir out : String)
    (h : ∀ i ∈ all_indices, (fs i).isSome) :
    ∃ (all_imgs wt_imgs : List Img) (g1 g2 : GifFile),
      load_frames fs all_indices = Except.ok all_imgs ∧
      load_frames fs WORKTREE_FRAMES = Except.ok wt_imgs ∧
      save_gif all_imgs durations = some g1 ∧
      save_gif wt_imgs worktree_durations = some g2 ∧
      runPipeline fs dir out = RunOutcome.exited 0 ["Speed: 3x"]
        [(out ++ "/demo.gif", g1), (out ++ "/worktree.gif", g2)] ∧
      g1.frames.length = 18 ∧ g2.frames.length = 5 ∧
      (∀ f ∈ g1.frames, listMax (all_imgs.map Img.width) = some f.width ∧
        listMax (all_imgs.map Img.height) = some f.height) ∧
      (∀ f ∈ g2.frames, listMax (wt_imgs.map Img.width) = some f.width ∧
        listMax (wt_imgs.map Img.height) = some f.height) :=
  runPipeline_all_present fs dir out h

/-- Witness for C8 with every frame present as a concrete image. -/
theorem pipeline_two_outputs_witness :
    (∀ i ∈ all_indices, ((fun _ : Nat => some (default : Img)) i).isSome) ∧
    (∃ (all_imgs wt_imgs : List Img) (g1 g2 : GifFile),
      load_frames (fun _ : Nat => some (default : Img)) all_indices =
        Except.ok all_imgs ∧
      load_frames (fun _ : Nat => some (default : Img)) WORKTREE_FRAMES =
        Except.ok wt_imgs ∧
      save_gif all_imgs durations = some g1 ∧
      save_gif wt_imgs worktree_durations = some g2 ∧
      runPipeline (fun _ : Nat => some (default : Img)) "frames" "out" =
        RunOutcome.exited 0 ["Speed: 3x"]
          [("out" ++ "/demo.gif", g1), ("out" ++ "/worktree.gif", g2)] ∧
      g1.frames.length = 18 ∧ g2.frames.length = 5 ∧
      (∀ f ∈ g1.frames, listMax (all_imgs.map Img.width) = some f.width ∧
        listMax (all_imgs.map Img.height) = some f.height) ∧
      (∀ f ∈ g2.frames, listMax (wt_imgs.map Img.width) = some f.width ∧
        listMax (wt_imgs.map Img.height) = some f.height)) :=
  ⟨by decide,
    pipeline_two_outputs (fun _ : Nat => some (default : Img)) "frames" "out"
      (by decide)⟩

end MakeGif
